import Mathlib

/-!
Shallow embedding of the flux_rx analytics core (src/flux_rx/analytics.py).

Modelling conventions:
* A pandas price Series is a `PSeries`: a list of (timestamp, price) pairs,
  timestamps as integers (whole days, so `(idx[-1] - idx[0]).days` is plain
  integer subtraction).  Functions that ignore the index operate on the plain
  value list `List ℚ`.
* Floats are modelled exactly: rationals wherever the source computes field
  operations, reals (`Real.sqrt`, `Real.rpow`) where it takes roots/powers.
* NaN is modelled as `Option.none`: a pandas sample std/var/cov of fewer than
  two observations is NaN, a mean of an empty selection is NaN, and NaN
  propagates through arithmetic; any value that can be NaN is an `Option`.
* A raised `FluxComputeError` is `Except.error`; functions that (transitively)
  call the validator return `Except FluxError _`.
-/

namespace FluxRx

/-- Error raised by the shared series validator (`FluxComputeError`). -/
inductive FluxError where
  | computeError (msg : String)
deriving DecidableEq

/-- A pandas Series of prices: (timestamp in days, price) pairs. -/
abbrev PSeries : Type := List (ℤ × ℚ)

/-- The price values of a series. -/
def vals (ps : PSeries) : List ℚ := ps.map Prod.snd

/-- The timestamps of a series. -/
def tstamps (ps : PSeries) : List ℤ := ps.map Prod.fst

/-- analytics.py line 14: `TRADING_DAYS_PER_YEAR = 252`. -/
def TRADING_DAYS_PER_YEAR : ℚ := 252

/-- analytics.py lines 18-24, `_validate_prices`: error on an empty series,
then on fewer than 2 data points. -/
def validate_prices (xs : List ℚ) : Except FluxError Unit :=
  if xs.isEmpty then Except.error (FluxError.computeError "input series is empty")
  else if xs.length < 2 then
    Except.error (FluxError.computeError "input series must have at least 2 data points")
  else Except.ok ()

/-- `prices.pct_change().dropna()`: r i = price i / price (i-1) - 1, the
leading NaN dropped; length = input length - 1. -/
def pctChange (xs : List ℚ) : List ℚ :=
  List.zipWith (fun p c => c / p - 1) xs xs.tail

/-- analytics.py lines 38-40, `daily_returns`: validate, then percent changes. -/
def daily_returns (xs : List ℚ) : Except FluxError (List ℚ) := do
  let _ ← validate_prices xs
  pure (pctChange xs)

/-- Mean of a list (pandas `.mean()` on a nonempty Series). -/
def listMean (xs : List ℚ) : ℚ := xs.sum / xs.length

/-- pandas `.mean()`: NaN on an empty selection. -/
def meanOpt (xs : List ℚ) : Option ℚ :=
  if xs.isEmpty then none else some (listMean xs)

/-- pandas `.std()`/`.var()` with ddof=1: the sample variance
`Σ (x - mean)² / (n - 1)`; NaN (`none`) for fewer than 2 observations.
The source compares and propagates the std `√v`; since `√v = 0 ↔ v = 0` and
`√` is injective on nonnegatives, guards on the std are modelled as guards on
the variance, and the `√` is applied where the value itself is used. -/
def sampleVarOpt (xs : List ℚ) : Option ℚ :=
  if 2 ≤ xs.length then
    some (((xs.map (fun x => (x - listMean xs) ^ 2)).sum) / ((xs.length : ℚ) - 1))
  else none

/-- pandas `Series.cov` with ddof=1: sample covariance
`Σ (x - mean x)(y - mean y) / (n - 1)`; NaN for fewer than 2 pairs. -/
def sampleCovOpt (xys : List (ℚ × ℚ)) : Option ℚ :=
  if 2 ≤ xys.length then
    some (((xys.map (fun p =>
        (p.1 - listMean (xys.map Prod.fst)) * (p.2 - listMean (xys.map Prod.snd)))).sum)
      / ((xys.length : ℚ) - 1))
  else none

/-- pandas `.cumprod()`: running products, same length as the input. -/
def cumprod (xs : List ℚ) : List ℚ :=
  (List.scanl (fun a b => a * b) 1 xs).tail

/-- analytics.py lines 43-45, `cumulative_returns`:
`(1 + returns).cumprod() - 1`. -/
def cumulative_returns (xs : List ℚ) : Except FluxError (List ℚ) :=
  (daily_returns xs).map (fun rs =>
    (cumprod (rs.map (fun r => 1 + r))).map (fun c => c - 1))

/-- analytics.py lines 48-49, `total_return`:
`prices.iloc[-1] / prices.iloc[0] - 1`.  It performs no validation; `none`
models only the IndexError on an empty series. -/
def total_return (xs : List ℚ) : Option ℚ :=
  match xs.getLast?, xs.head? with
  | some l, some h => some (l / h - 1)
  | _, _ => none

/-- pandas `.cummax()`: running maxima. -/
def cummax (xs : List ℚ) : List ℚ :=
  match xs with
  | [] => []
  | h :: t => List.scanl max h t

/-- analytics.py lines 80-82, `drawdown_series`:
`(prices - cummax) / cummax`. -/
def drawdown_series (xs : List ℚ) : List ℚ :=
  List.zipWith (fun p m => (p - m) / m) xs (cummax xs)

/-- analytics.py lines 74-77, `max_drawdown`: minimum of the drawdown series
(no validation; NaN on an empty series). -/
def max_drawdown (xs : List ℚ) : Option ℚ :=
  (drawdown_series xs).min?

/-- analytics.py lines 342-345, `win_rate`: fraction of strictly positive
daily returns, 0.0 if there are none. -/
def win_rate (xs : List ℚ) : Except FluxError ℚ :=
  (daily_returns xs).map (fun rs =>
    if 0 < rs.length then ((rs.filter (fun r => 0 < r)).length : ℚ) / (rs.length : ℚ)
    else 0)

/-- analytics.py lines 333-339, `omega_ratio`. -/
def omega_ratio (xs : List ℚ) (threshold : ℚ) : Except FluxError ℚ :=
  (daily_returns xs).map (fun rs =>
    let excess := rs.map (fun r => r - threshold)
    let upside := (excess.filter (fun e => 0 < e)).sum
    let downside := -((excess.filter (fun e => e < 0)).sum)
    if downside ≠ 0 then upside / downside else 0)

/-- `np.percentile(a, q)` with the default linear interpolation:
`rank = q/100 * (n-1)`, result interpolated between the two adjacent order
statistics of the ascending sort. -/
def percentile (rs : List ℚ) (q : ℚ) : ℚ :=
  let s := rs.mergeSort (fun a b => decide (a ≤ b))
  let n := s.length
  let rank : ℚ := q * ((n : ℚ) - 1) / 100
  let lo : ℕ := (⌊rank⌋).toNat
  let hi : ℕ := min (lo + 1) (n - 1)
  let frac : ℚ := rank - ((⌊rank⌋ : ℤ) : ℚ)
  s.getD lo 0 + frac * (s.getD hi 0 - s.getD lo 0)

/-- analytics.py lines 320-323, `value_at_risk`:
`np.percentile(returns, (1 - confidence) * 100)`. -/
def value_at_risk (xs : List ℚ) (confidence : ℚ) : Except FluxError ℚ :=
  (daily_returns xs).map (fun rs => percentile rs ((1 - confidence) * 100))

/-- analytics.py lines 326-330, `conditional_va_risk`:
mean of the returns at or below the VaR threshold (NaN for an empty
selection). -/
def conditional_va_risk (xs : List ℚ) (confidence : ℚ) : Except FluxError (Option ℚ) := do
  let rs ← daily_returns xs
  let v ← value_at_risk xs confidence
  pure (meanOpt (rs.filter (fun r => r ≤ v)))

/-- The trailing `w`-observation window ending at index `i` (inclusive):
elements `i-w+1 .. i`. -/
def windowAt (xs : List ℚ) (i w : ℕ) : List ℚ :=
  (xs.take (i + 1)).drop (i + 1 - w)

/-- pandas `.rolling(window=w)` with an aggregator `f`: entry `i` is NaN while
fewer than `w` observations are available (`i + 1 < w`), else `f` of the
trailing `w`-observation window ending at `i`. -/
def rollingApply (w : ℕ) (f : List ℚ → Option ℚ) (xs : List ℚ) : List (Option ℚ) :=
  (List.range xs.length).map (fun i =>
    if i + 1 < w then none else f (windowAt xs i w))

/-- The indexed daily returns of a `PSeries`: values `pct_change().dropna()`,
timestamps the input timestamps with the first dropped. -/
def dailyIdx (ps : PSeries) : List (ℤ × ℚ) :=
  List.zip (tstamps ps).tail (pctChange (vals ps))

/-- analytics.py `daily_returns` applied to an indexed series. -/
def daily_returnsIdx (ps : PSeries) : Except FluxError (List (ℤ × ℚ)) := do
  let _ ← validate_prices (vals ps)
  pure (dailyIdx ps)

/-- `pd.DataFrame({"asset": returns, "bench": bench_returns}).dropna()`: inner
join of two indexed series on their timestamps, in the order of the first. -/
def alignSeries (a b : List (ℤ × ℚ)) : List (ℤ × ℚ × ℚ) :=
  a.filterMap (fun p => (b.lookup p.1).map (fun y => (p.1, p.2, y)))

/-- The `asset` column of an aligned pair of return series. -/
def assetVals (l : List (ℤ × ℚ × ℚ)) : List ℚ := l.map (fun x => x.2.1)

/-- The `bench` column of an aligned pair of return series. -/
def benchVals (l : List (ℤ × ℚ × ℚ)) : List ℚ := l.map (fun x => x.2.2)

/-- The (asset, bench) value pairs of an aligned pair of return series. -/
def pairVals (l : List (ℤ × ℚ × ℚ)) : List (ℚ × ℚ) := l.map (fun x => x.2)

/-- The aligned (asset, bench) daily-return pairs of two price series. -/
def alignedReturns (ps bp : PSeries) : List (ℤ × ℚ × ℚ) :=
  alignSeries (dailyIdx ps) (dailyIdx bp)

/-- analytics.py lines 167-175, `beta`: `cov / var if var != 0 else 0.0` over
the aligned returns.  A NaN variance (fewer than 2 aligned pairs) satisfies
`var != 0` in Python and yields NaN (`none`); a zero variance yields `0.0`. -/
def beta (ps bp : PSeries) : Except FluxError (Option ℚ) := do
  let r ← daily_returnsIdx ps
  let b ← daily_returnsIdx bp
  let aligned := alignSeries r b
  let cov := sampleCovOpt (pairVals aligned)
  match sampleVarOpt (benchVals aligned) with
  | none => pure none
  | some v => if v ≠ 0 then pure (cov.map (fun c => c / v)) else pure (some 0)

/-- analytics.py lines 146-164, `rolling_beta`: NaN for `i < window`, else
`cov / var if var != 0 else np.nan` over `aligned.iloc[i - window : i]` (the
`window` aligned observations strictly before `i`).  A NaN window variance
(window shorter than 2) propagates to NaN. -/
def rolling_beta (ps bp : PSeries) (w : ℕ) : Except FluxError (List (Option ℚ)) := do
  let r ← daily_returnsIdx ps
  let b ← daily_returnsIdx bp
  let aligned := alignSeries r b
  pure ((List.range aligned.length).map (fun i =>
    if i < w then none
    else
      let win := (aligned.take i).drop (i - w)
      match sampleVarOpt (benchVals win) with
      | none => none
      | some v => if v ≠ 0 then (sampleCovOpt (pairVals win)).map (fun c => c / v) else none))

/-- Decides `(t : ℝ) < Real.sqrt x` for `0 ≤ x` by comparing squares
(`qlt_sqrt_iff` below); used so regime labels stay computable. -/
def qlt_sqrt (t x : ℚ) : Bool :=
  if 0 ≤ t then decide (t ^ 2 < x) else true

/-- Errors observable from `detect_regime`: the shared validator's
`FluxComputeError`, or the pandas `IndexingError` raised by boolean-Series
indexing with an unalignable index. -/
inductive RegimeError where
  | computeError (msg : String)
  | indexingError (msg : String)
deriving DecidableEq

/-- Wraps a propagating `FluxComputeError`. -/
def toRegimeError : FluxError → RegimeError
  | FluxError.computeError m => RegimeError.computeError m

/-- pandas `Series.__setitem__` with a boolean Series indexer
(`target[mask] = value`).  `check_bool_indexer` reindexes the mask onto the
target's index and raises
`IndexingError("Unalignable boolean Series provided as indexer ...")` when
any target label is absent from the mask's index; otherwise every position
whose aligned mask value is True is overwritten with `value`. -/
def maskAssign (target : List (ℤ × Option String)) (mask : List (ℤ × Bool))
    (value : String) : Except RegimeError (List (ℤ × Option String)) :=
  if (target.map Prod.fst).all (fun ts => (mask.map Prod.fst).contains ts) then
    Except.ok (target.map (fun p =>
      if (mask.lookup p.1).getD false then (p.1, some value) else p))
  else
    Except.error (RegimeError.indexingError
      "unalignable boolean Series provided as indexer")

/-- `pd.Series(index=idx, dtype=str)`: an all-NaN string Series on `idx`. -/
def emptyStrSeries (idx : List ℤ) : List (ℤ × Option String) :=
  idx.map (fun ts => (ts, none))

/-- The boolean Series `short_ma > long_ma`, indexed by the price timestamps;
False wherever either moving average is NaN. -/
def trendMaskGT (ps : PSeries) (short_window long_window : ℕ) : List (ℤ × Bool) :=
  List.zipWith (fun ts sl =>
    (ts, match sl with
      | (some s, some l) => decide (l < s)
      | _ => false))
    (tstamps ps)
    (List.zip (rollingApply short_window meanOpt (vals ps))
      (rollingApply long_window meanOpt (vals ps)))

/-- The boolean Series `short_ma <= long_ma`, indexed by the price
timestamps; False wherever either moving average is NaN. -/
def trendMaskLE (ps : PSeries) (short_window long_window : ℕ) : List (ℤ × Bool) :=
  List.zipWith (fun ts sl =>
    (ts, match sl with
      | (some s, some l) => decide (s ≤ l)
      | _ => false))
    (tstamps ps)
    (List.zip (rollingApply short_window meanOpt (vals ps))
      (rollingApply long_window meanOpt (vals ps)))

/-- The boolean Series `roll_vol > vol_threshold` over the indexed daily
returns `rs`: the annualized rolling volatility is `√v·√252 = √(252 v)`, so
the comparison is `qlt_sqrt vol_threshold (252 v)` (see `qlt_sqrt_iff`);
False wherever the rolling std is NaN.  Its index is the *return*
timestamps, which is what makes the later assignment unalignable. -/
def volMaskGT (rs : List (ℤ × ℚ)) (vol_window : ℕ) (vol_threshold : ℚ) :
    List (ℤ × Bool) :=
  List.zipWith (fun ts v =>
    (ts, match v with
      | some v => qlt_sqrt vol_threshold (252 * v)
      | none => false))
    (rs.map Prod.fst) (rollingApply vol_window sampleVarOpt (rs.map Prod.snd))

/-- The boolean Series `roll_vol <= vol_threshold` over the indexed daily
returns; False wherever the rolling std is NaN. -/
def volMaskLE (rs : List (ℤ × ℚ)) (vol_window : ℕ) (vol_threshold : ℚ) :
    List (ℤ × Bool) :=
  List.zipWith (fun ts v =>
    (ts, match v with
      | some v => !(qlt_sqrt vol_threshold (252 * v))
      | none => false))
    (rs.map Prod.fst) (rollingApply vol_window sampleVarOpt (rs.map Prod.snd))

noncomputable section

/-- analytics.py lines 52-63, `cagr`:
`(1 + total_return) ** (1 / (days / 365.25)) - 1`, and `0.0` when the elapsed
days are `≤ 0`.  Real exponentiation is `Real.rpow`. -/
def cagrCore (ps : PSeries) : ℝ :=
  let days : ℤ := (tstamps ps).getLast?.getD 0 - (tstamps ps).head?.getD 0
  if days ≤ 0 then 0
  else
    let years : ℝ := (days : ℝ) / (365.25 : ℝ)
    let tr : ℚ := (total_return (vals ps)).getD 0
    ((1 : ℝ) + (tr : ℝ)) ^ ((1 : ℝ) / years) - 1

/-- `cagr` with its validation (it calls `_validate_prices`). -/
def cagr (ps : PSeries) : Except FluxError ℝ := do
  let _ ← validate_prices (vals ps)
  pure (cagrCore ps)

/-- analytics.py lines 66-71, `volatility`: sample std of daily returns,
`× √252` when annualized; NaN for a single return. -/
def volatility (xs : List ℚ) (annualize : Bool) : Except FluxError (Option ℝ) :=
  (daily_returns xs).map (fun rs =>
    (sampleVarOpt rs).map (fun v : ℚ =>
      Real.sqrt ((v : ℚ) : ℝ) * (if annualize then Real.sqrt ((252 : ℚ) : ℝ) else 1)))

/-- analytics.py lines 85-95, `sharpe_ratio`.  `globalRate` is the module
global `_RISK_FREE_RATE`, read only when the argument is `none`.  The source
guard `returns.std() == 0` is `v = 0` on the variance (false for NaN, which
then propagates: `mean / NaN = NaN`). -/
def sharpe_ratio (globalRate : ℚ) (xs : List ℚ) (rfr : Option ℚ) :
    Except FluxError (Option ℝ) :=
  let r := rfr.getD globalRate
  (daily_returns xs).map (fun returns =>
    let excess := returns.map (fun x => x - r / TRADING_DAYS_PER_YEAR)
    match sampleVarOpt returns with
    | none => none
    | some v =>
      if v = 0 then some 0
      else some (((listMean excess : ℚ) : ℝ) / Real.sqrt ((v : ℚ) : ℝ)
        * Real.sqrt ((252 : ℚ) : ℝ)))

/-- analytics.py lines 98-109, `sortino_ratio`: `0.0` when there are no
negative returns or their std is zero; a NaN downside std (exactly one
negative return) propagates to NaN. -/
def sortino_ratio (globalRate : ℚ) (xs : List ℚ) (rfr : Option ℚ) :
    Except FluxError (Option ℝ) :=
  let r := rfr.getD globalRate
  (daily_returns xs).map (fun returns =>
    let excess := returns.map (fun x => x - r / TRADING_DAYS_PER_YEAR)
    let downside := returns.filter (fun x => x < 0)
    if downside.isEmpty then some 0
    else
      match sampleVarOpt downside with
      | none => none
      | some v =>
        if v = 0 then some 0
        else some (((listMean excess : ℚ) : ℝ) / Real.sqrt ((v : ℚ) : ℝ)
          * Real.sqrt ((252 : ℚ) : ℝ)))

/-- analytics.py lines 112-117, `calmar_ratio`: `cagr / |max_drawdown|`,
`0.0` when the max drawdown is zero. -/
def calmar_ratio (ps : PSeries) : Except FluxError ℝ := do
  let a ← cagr ps
  let m : ℚ := |(max_drawdown (vals ps)).getD 0|
  if m = 0 then pure 0 else pure (a / ((m : ℚ) : ℝ))

/-- analytics.py lines 120-129, `rolling_volatility`: rolling sample std of
daily returns, `× √252` when annualized. -/
def rolling_volatility (xs : List ℚ) (w : ℕ) (annualize : Bool) :
    Except FluxError (List (Option ℝ)) :=
  (daily_returns xs).map (fun rs =>
    (rollingApply w sampleVarOpt rs).map (Option.map (fun v : ℚ =>
      Real.sqrt ((v : ℚ) : ℝ) * (if annualize then Real.sqrt ((252 : ℚ) : ℝ) else 1))))

/-- analytics.py lines 132-143, `rolling_sharpe`:
`(rolling mean of excess returns / rolling std of returns) × √252`; NaN where
either rolling statistic is NaN. -/
def rolling_sharpe (globalRate : ℚ) (xs : List ℚ) (w : ℕ) (rfr : Option ℚ) :
    Except FluxError (List (Option ℝ)) :=
  let r := rfr.getD globalRate
  (daily_returns xs).map (fun rs =>
    let excess := rs.map (fun x => x - r / TRADING_DAYS_PER_YEAR)
    List.zipWith (fun m v =>
      match m, v with
      | some m, some v =>
        some (((m : ℚ) : ℝ) / Real.sqrt ((v : ℚ) : ℝ) * Real.sqrt ((252 : ℚ) : ℝ))
      | _, _ => none)
      (rollingApply w meanOpt excess) (rollingApply w sampleVarOpt rs))

/-- analytics.py lines 214-219, `z_score`:
`(prices - rolling mean) / rolling std`, over the price series itself. -/
def z_score (xs : List ℚ) (w : ℕ) : Except FluxError (List (Option ℝ)) := do
  let _ ← validate_prices xs
  pure (List.zipWith (fun p mv =>
    match mv with
    | (some m, some v) => some (((p - m : ℚ) : ℝ) / Real.sqrt ((v : ℚ) : ℝ))
    | _ => none)
    xs (List.zip (rollingApply w meanOpt xs) (rollingApply w sampleVarOpt xs)))

/-- analytics.py lines 178-188, `alpha`:
`asset_cagr - (rf + beta * (bench_cagr - rf))`; NaN when beta is NaN. -/
def alpha (globalRate : ℚ) (ps bp : PSeries) (rfr : Option ℚ) :
    Except FluxError (Option ℝ) := do
  let r := rfr.getD globalRate
  let a ← cagr ps
  let bg ← cagr bp
  let bt ← beta ps bp
  pure (bt.map (fun b => a - (((r : ℚ) : ℝ) + ((b : ℚ) : ℝ) * (bg - ((r : ℚ) : ℝ)))))

/-- analytics.py lines 191-200, `tracking_error`: std of aligned active
returns, `× √252` when annualized; NaN for fewer than 2 aligned pairs. -/
def tracking_error (ps bp : PSeries) (annualize : Bool) :
    Except FluxError (Option ℝ) := do
  let r ← daily_returnsIdx ps
  let b ← daily_returnsIdx bp
  let aligned := alignSeries r b
  let active := aligned.map (fun x => x.2.1 - x.2.2)
  pure ((sampleVarOpt active).map (fun v : ℚ =>
    Real.sqrt ((v : ℚ) : ℝ) * (if annualize then Real.sqrt ((252 : ℚ) : ℝ) else 1)))

/-- analytics.py lines 203-211, `information_ratio`:
`(asset_cagr - bench_cagr) / tracking_error`, `0.0` when the tracking error is
zero; a NaN tracking error satisfies `te != 0` in Python and propagates. -/
def information_ratio (ps bp : PSeries) : Except FluxError (Option ℝ) := do
  let a ← cagr ps
  let bg ← cagr bp
  let te ← tracking_error ps bp true
  match te with
  | none => pure none
  | some t => if t = 0 then pure (some 0) else pure (some ((a - bg) / t))

/-- The per-timestamp regime classification `detect_regime` would return
(the columns of its DataFrame).  Its construction at analytics.py line 308 is
unreachable: the assignment at line 305 always raises first (see
`c8_detect_regime_raises`). -/
structure RegimeFrame where
  trend : List (ℤ × Option String)
  volatility_regime : List (ℤ × Option String)
  short_ma : List (Option ℚ)
  long_ma : List (Option ℚ)
  rolling_vol : List (Option ℝ)

/-- analytics.py lines 288-317, `detect_regime`.  The moving averages are
computed first; `daily_returns` then validates (raising `FluxComputeError`
on a too-short series).  Each mask assignment
`series[bool_series] = label` is `maskAssign`, pandas boolean-Series
`__setitem__`.  The two trend masks are indexed by the full price index and
align; the volatility masks are indexed by the *return* timestamps
(`prices.index[1:]`), which do not cover the price index, so the assignment
`volatility_regime[roll_vol > vol_threshold] = "high_vol"` (line 305) raises
`IndexingError` and the frame construction below it is never reached. -/
def detect_regime (ps : PSeries) (short_window long_window vol_window : ℕ)
    (vol_threshold : ℚ) : Except RegimeError RegimeFrame := do
  let short_ma := rollingApply short_window meanOpt (vals ps)
  let long_ma := rollingApply long_window meanOpt (vals ps)
  let rs ← (daily_returnsIdx ps).mapError toRegimeError
  let trend1 ← maskAssign (emptyStrSeries (tstamps ps))
    (trendMaskGT ps short_window long_window) "uptrend"
  let trend ← maskAssign trend1 (trendMaskLE ps short_window long_window) "downtrend"
  let vol1 ← maskAssign (emptyStrSeries (tstamps ps))
    (volMaskGT rs vol_window vol_threshold) "high_vol"
  let volatility_regime ← maskAssign vol1 (volMaskLE rs vol_window vol_threshold) "low_vol"
  pure {
    trend := trend
    volatility_regime := volatility_regime
    short_ma := short_ma
    long_ma := long_ma
    rolling_vol := (rollingApply vol_window sampleVarOpt (rs.map Prod.snd)).map
      (Option.map (fun v : ℚ => Real.sqrt ((252 * v : ℚ) : ℝ))) }

/-- The benchmark-dependent entries of the `compute_metrics` report. -/
structure BenchMetrics where
  beta : Option ℚ
  alpha : Option ℝ
  tracking_error : Option ℝ
  info_ratio : Option ℝ

/-- The `compute_metrics` report dict. -/
structure Metrics where
  total_return : Option ℚ
  cagr : ℝ
  volatility : Option ℝ
  max_drawdown : Option ℚ
  sharpe_ratio : Option ℝ
  sortino_ratio : Option ℝ
  calmar_ratio : ℝ
  win_rate : ℚ
  var_95 : ℚ
  cvar_95 : Option ℚ
  omega : ℚ
  bench : Option BenchMetrics

/-- analytics.py lines 348-377, `compute_metrics`: validates, resolves the
risk-free rate from the global default when the argument is `None`, then
builds the report, passing the resolved rate explicitly to the rate-dependent
metrics; benchmark metrics only when a benchmark is supplied. -/
def compute_metrics (globalRate : ℚ) (ps : PSeries) (bench : Option PSeries)
    (rfr : Option ℚ) : Except FluxError Metrics := do
  let _ ← validate_prices (vals ps)
  let r := rfr.getD globalRate
  let a ← cagr ps
  let vol ← volatility (vals ps) true
  let sh ← sharpe_ratio globalRate (vals ps) (some r)
  let so ← sortino_ratio globalRate (vals ps) (some r)
  let cal ← calmar_ratio ps
  let wr ← win_rate (vals ps)
  let v95 ← value_at_risk (vals ps) (95 / 100)
  let c95 ← conditional_va_risk (vals ps) (95 / 100)
  let om ← omega_ratio (vals ps) 0
  let bm ← match bench with
    | none => pure (none : Option BenchMetrics)
    | some bp => do
        let b ← beta ps bp
        let al ← alpha globalRate ps bp (some r)
        let te ← tracking_error ps bp true
        let ir ← information_ratio ps bp
        pure (some { beta := b, alpha := al, tracking_error := te, info_ratio := ir })
  pure {
    total_return := total_return (vals ps)
    cagr := a
    volatility := vol
    max_drawdown := max_drawdown (vals ps)
    sharpe_ratio := sh
    sortino_ratio := so
    calmar_ratio := cal
    win_rate := wr
    var_95 := v95
    cvar_95 := c95
    omega := om
    bench := bm }

end

/-! ### Helper lemmas -/

theorem ok_bind {α β : Type} (a : α) (f : α → Except FluxError β) :
    (Except.ok a >>= f) = f a := rfl

theorem error_bind {α β : Type} (e : FluxError) (f : α → Except FluxError β) :
    ((Except.error e : Except FluxError α) >>= f) = Except.error e := rfl

theorem map_ok {α β : Type} (f : α → β) (a : α) :
    Except.map f (Except.ok a : Except FluxError α) = Except.ok (f a) := rfl

theorem isEmpty_false_of_two_le {xs : List ℚ} (h : 2 ≤ xs.length) :
    xs.isEmpty = false := by
  cases xs with
  | nil => simp at h
  | cons a t => rfl

theorem validate_prices_ok {xs : List ℚ} (h : 2 ≤ xs.length) :
    validate_prices xs = Except.ok () := by
  simp [validate_prices, isEmpty_false_of_two_le h]
  omega

theorem daily_returns_ok {xs : List ℚ} (h : 2 ≤ xs.length) :
    daily_returns xs = Except.ok (pctChange xs) := by
  simp [daily_returns, validate_prices_ok h, ok_bind]

/-! ### Claim C1 -/

/-- Claim C1: for every price series of length at least 2 whose daily returns
have zero sample standard deviation (zero sample variance), and for every
risk-free rate (explicit or defaulted), `sharpe_ratio` returns exactly `0.0`
(`Except.ok (some 0)`: no error, not NaN, not infinite). -/
theorem c1_sharpe_zero_variance (g : ℚ) (xs : List ℚ) (rfr : Option ℚ)
    (hlen : 2 ≤ xs.length) (hvar : sampleVarOpt (pctChange xs) = some 0) :
    sharpe_ratio g xs rfr = Except.ok (some 0) := by
  simp [sharpe_ratio, daily_returns_ok hlen, hvar, map_ok]

/-- Witness for C1 at the constant-return series `[1, 1, 1]`. -/
theorem c1_sharpe_zero_variance_witness :
    (2 ≤ ([1, 1, 1] : List ℚ).length ∧ sampleVarOpt (pctChange [1, 1, 1]) = some 0)
    ∧ sharpe_ratio (1 / 25) [1, 1, 1] (some (3 / 100)) = Except.ok (some 0) :=
  ⟨⟨by norm_num, by norm_num [sampleVarOpt, pctChange, listMean]⟩,
   c1_sharpe_zero_variance (1 / 25) [1, 1, 1] (some (3 / 100)) (by norm_num)
     (by norm_num [sampleVarOpt, pctChange, listMean])⟩

/-! ### Claim C7 -/

/-- Claim C7: for every non-empty price series, `total_return` returns
`price[last] / price[first] - 1`, and it performs no validation beyond
non-emptiness: on a series of fewer than 2 points (which `daily_returns`
rejects with a ComputeError) it still returns a value. -/
theorem c7_total_return_no_validation (xs : List ℚ) (l h : ℚ)
    (hh : xs.head? = some h) (hl : xs.getLast? = some l) :
    total_return xs = some (l / h - 1)
    ∧ (xs.length < 2 →
        (total_return xs).isSome = true
        ∧ daily_returns xs = Except.error
            (FluxError.computeError "input series must have at least 2 data points")) := by
  refine ⟨by simp [total_return, hh, hl], fun hlen => ⟨by simp [total_return, hh, hl], ?_⟩⟩
  have hne : xs ≠ [] := by
    intro e
    subst e
    simp at hh
  have h1 : xs.isEmpty = false := by
    cases xs with
    | nil => exact absurd rfl hne
    | cons a t => rfl
  simp [daily_returns, validate_prices, h1, hlen, error_bind]

/-- Witness for C7 at the singleton series `[5]`. -/
theorem c7_total_return_no_validation_witness :
    (([(5 : ℚ)] : List ℚ).head? = some 5 ∧ ([(5 : ℚ)] : List ℚ).getLast? = some 5)
    ∧ (total_return [(5 : ℚ)] = some (5 / 5 - 1)
       ∧ (([(5 : ℚ)] : List ℚ).length < 2 →
           (total_return [(5 : ℚ)]).isSome = true
           ∧ daily_returns [(5 : ℚ)] = Except.error
               (FluxError.computeError "input series must have at least 2 data points"))) :=
  ⟨⟨rfl, rfl⟩, c7_total_return_no_validation [(5 : ℚ)] 5 5 rfl rfl⟩

/-! ### Claim C4 -/

theorem getLast?_cons_of_ne_nil {α : Type} (a : α) {l : List α} (h : l ≠ []) :
    (a :: l).getLast? = l.getLast? := by
  cases l with
  | nil => exact absurd rfl h
  | cons b t => exact List.getLast?_cons_cons

theorem scanl_mul_getLast? (l : List ℚ) (init : ℚ) :
    (List.scanl (fun a b => a * b) init l).getLast? = some (init * l.prod) := by
  induction l generalizing init with
  | nil => simp
  | cons x t ih =>
    rw [List.scanl_cons]
    have hne : (List.scanl (fun a b => a * b) (init * x) t) ≠ [] := by
      have := List.length_scanl (f := fun a b : ℚ => a * b) (init * x) t
      exact List.length_pos.mp (by omega)
    rw [List.cons_append, List.nil_append, getLast?_cons_of_ne_nil _ hne, ih,
      List.prod_cons, mul_assoc]

theorem cumprod_getLast? {ws : List ℚ} (h : ws ≠ []) :
    (cumprod ws).getLast? = some ws.prod := by
  cases ws with
  | nil => exact absurd rfl h
  | cons x t =>
    rw [cumprod, List.scanl_cons, List.cons_append, List.nil_append, List.tail_cons,
      scanl_mul_getLast?, List.prod_cons, one_mul]

theorem prod_one_add_pctChange (a : ℚ) (l : List ℚ) (ha : a ≠ 0)
    (hl : ∀ p ∈ l, p ≠ 0) :
    ((pctChange (a :: l)).map (fun r => 1 + r)).prod
      = (a :: l).getLast (List.cons_ne_nil a l) / a := by
  induction l generalizing a with
  | nil =>
    simp [pctChange, List.getLast, div_self ha]
  | cons b t ih =>
    have hb : b ≠ 0 := hl b (by simp)
    have ht : ∀ p ∈ t, p ≠ 0 := fun p hp => hl p (by simp [hp])
    have hstep : pctChange (a :: b :: t) = (b / a - 1) :: pctChange (b :: t) := rfl
    rw [hstep, List.map_cons, List.prod_cons, ih b hb ht,
      List.getLast_cons (List.cons_ne_nil b t)]
    have h1 : (1 : ℚ) + (b / a - 1) = b / a := by ring
    rw [h1, div_mul_div_comm, mul_comm a b, mul_div_mul_left _ _ hb]

/-- Claim C4: for every valid price series (length at least 2, positive
prices), the last element of `cumulative_returns` equals `total_return`
exactly: the running product of `1 + r` telescopes to
`price[last] / price[first]`. -/
theorem c4_cumulative_total (xs : List ℚ) (h2 : 2 ≤ xs.length)
    (hpos : ∀ p ∈ xs, 0 < p) :
    (cumulative_returns xs).map List.getLast? = Except.ok (total_return xs) := by
  match xs, h2 with
  | a :: b :: t, _ =>
    have ha : a ≠ 0 := ne_of_gt (hpos a (by simp))
    have hl : ∀ p ∈ b :: t, p ≠ 0 := fun p hp => ne_of_gt (hpos p (by simp [hp]))
    have hlen : 2 ≤ (a :: b :: t).length := by simp
    rw [cumulative_returns, daily_returns_ok hlen, map_ok, map_ok]
    have hpc : pctChange (a :: b :: t) = (b / a - 1) :: pctChange (b :: t) := rfl
    have hne : ((pctChange (a :: b :: t)).map (fun r => 1 + r)) ≠ [] := by
      rw [hpc]
      simp
    rw [List.getLast?_map, cumprod_getLast? hne, prod_one_add_pctChange a (b :: t) ha hl]
    have hlast : (a :: b :: t).getLast? = some ((a :: b :: t).getLast (List.cons_ne_nil _ _)) :=
      List.getLast?_eq_getLast _ _
    simp only [total_return, hlast, List.head?_cons]
    rw [List.getLast_cons (List.cons_ne_nil b t)]
    rfl

/-- Witness for C4 at the series `[1, 2, 4]`. -/
theorem c4_cumulative_total_witness :
    (2 ≤ ([1, 2, 4] : List ℚ).length ∧ ∀ p ∈ ([1, 2, 4] : List ℚ), 0 < p)
    ∧ (cumulative_returns [1, 2, 4]).map List.getLast? = Except.ok (total_return [1, 2, 4]) :=
  ⟨⟨by norm_num, by norm_num⟩,
   c4_cumulative_total [1, 2, 4] (by norm_num) (by norm_num)⟩

/-! ### Claim C5 -/

theorem pctChange_length (xs : List ℚ) : (pctChange xs).length = xs.length - 1 := by
  rw [pctChange, List.length_zipWith, List.length_tail]
  exact Nat.min_eq_right (Nat.sub_le _ _)

theorem dailyIdx_keys (ps : PSeries) : (dailyIdx ps).map Prod.fst = (tstamps ps).tail := by
  apply List.map_fst_zip
  rw [pctChange_length, List.length_tail]
  simp [tstamps, vals]

theorem dailyIdx_snd (ps : PSeries) : (dailyIdx ps).map Prod.snd = pctChange (vals ps) := by
  apply List.map_snd_zip
  rw [pctChange_length, List.length_tail]
  simp [tstamps, vals]

theorem daily_returnsIdx_ok {ps : PSeries} (h2 : 2 ≤ (vals ps).length) :
    daily_returnsIdx ps = Except.ok (dailyIdx ps) := by
  simp [daily_returnsIdx, validate_prices_ok h2, ok_bind]

theorem lookup_self {l : List (ℤ × ℚ)} (hnd : (l.map Prod.fst).Nodup) :
    ∀ p ∈ l, l.lookup p.1 = some p.2 := by
  induction l with
  | nil =>
    intro p hp
    simp at hp
  | cons q t ih =>
    obtain ⟨k, b⟩ := q
    intro p hp
    rw [List.map_cons] at hnd
    have hnd' := List.nodup_cons.mp hnd
    rcases List.mem_cons.mp hp with hpq | hpt
    · subst hpq
      simp [List.lookup_cons]
    · have hne : (p.1 == k) = false := by
        apply beq_eq_false_iff_ne.mpr
        intro he
        exact hnd'.1 (he ▸ (List.mem_map.mpr ⟨p, hpt, rfl⟩))
      rw [List.lookup_cons]
      simp only [hne]
      exact ih hnd'.2 p hpt

theorem alignSeries_of_lookup {l full : List (ℤ × ℚ)}
    (h : ∀ p ∈ l, full.lookup p.1 = some p.2) :
    alignSeries l full = l.map (fun p => (p.1, p.2, p.2)) := by
  induction l with
  | nil => rfl
  | cons q t ih =>
    have hq := h q (by simp)
    simp only [alignSeries] at ih ⊢
    rw [List.filterMap_cons, hq, Option.map_some', ih (fun p hp => h p (by simp [hp])),
      List.map_cons]

theorem sampleCovOpt_diag (vs : List ℚ) :
    sampleCovOpt (vs.map (fun x => (x, x))) = sampleVarOpt vs := by
  have h1 : (vs.map (fun x => (x, x))).map Prod.fst = vs := by
    rw [List.map_map]
    have hid : (Prod.fst ∘ fun x : ℚ => (x, x)) = id := rfl
    rw [hid, List.map_id]
  have h2 : (vs.map (fun x => (x, x))).map Prod.snd = vs := by
    rw [List.map_map]
    have hid : (Prod.snd ∘ fun x : ℚ => (x, x)) = id := rfl
    rw [hid, List.map_id]
  by_cases hc : 2 ≤ vs.length
  · simp only [sampleCovOpt, sampleVarOpt, h1, h2, List.length_map, if_pos hc, List.map_map]
    have hsum : List.map ((fun p : ℚ × ℚ => (p.1 - listMean vs) * (p.2 - listMean vs))
          ∘ fun x => (x, x)) vs
        = List.map (fun x => (x - listMean vs) ^ 2) vs := by
      apply List.map_congr_left
      intro a _
      simp only [Function.comp_apply]
      ring
    rw [hsum]
  · simp only [sampleCovOpt, sampleVarOpt, h1, h2, List.length_map, if_neg hc]

theorem nodup_tail_of_chain {il : List ℤ} (h : List.Chain' (· < ·) il) :
    il.tail.Nodup := by
  have hp : List.Pairwise (· < ·) il.tail := List.chain'_iff_pairwise.mp h.tail
  exact hp.imp (fun {a b} hab => ne_of_lt hab)

theorem cagr_ok {ps : PSeries} (h2 : 2 ≤ (vals ps).length) :
    cagr ps = Except.ok (cagrCore ps) := by
  simp [cagr, validate_prices_ok h2, ok_bind]

/-- Counterexample to claim C5 as stated: the valid price series
`[(0, 1), (1, 2), (2, 4)]` (constant daily return 1.0, zero return variance)
used as its own benchmark gives `beta = 0.0`, not approximately `1.0`:
the zero benchmark variance takes the `0.0` branch of `beta`. -/
theorem c5_beta_self_counterexample :
    beta [((0 : ℤ), (1 : ℚ)), (1, 2), (2, 4)] [((0 : ℤ), (1 : ℚ)), (1, 2), (2, 4)]
      = Except.ok (some 0) := by
  have h2 : 2 ≤ (vals [((0 : ℤ), (1 : ℚ)), (1, 2), (2, 4)]).length := by
    simp [vals]
  rw [beta]
  rw [daily_returnsIdx_ok h2, ok_bind, ok_bind]
  have hd : dailyIdx [((0 : ℤ), (1 : ℚ)), (1, 2), (2, 4)] = [(1, 1), (2, 1)] := by
    simp [dailyIdx, tstamps, vals, pctChange]
    norm_num
  rw [hd]
  have ha : alignSeries [((1 : ℤ), (1 : ℚ)), (2, 1)] [((1 : ℤ), (1 : ℚ)), (2, 1)]
      = [(1, 1, 1), (2, 1, 1)] := by
    simp [alignSeries, List.lookup]
  have hv : sampleVarOpt (benchVals [((1 : ℤ), (1 : ℚ), (1 : ℚ)), (2, 1, 1)]) = some 0 := by
    norm_num [sampleVarOpt, benchVals, listMean]
  simp only [ha, hv]
  simp
  rfl

/-- Claim C5 amended: for every valid price series (strictly increasing
timestamps, length at least 2) whose daily returns have *nonzero* sample
variance (in particular at least 3 points), and every risk-free rate,
`beta(P, P)` is exactly `1.0` and `alpha(P, P)` is exactly `0.0`.  As stated
the claim fails on constant-return series, where the zero benchmark variance
makes `beta` return its `0.0` sentinel (see the counterexample), and on
2-point series, where the one-observation variance is NaN and beta is NaN. -/
theorem c5_beta_alpha_self (g : ℚ) (ps : PSeries) (rfr : Option ℚ) (v : ℚ)
    (hts : List.Chain' (· < ·) (tstamps ps))
    (h2 : 2 ≤ (vals ps).length)
    (hv : sampleVarOpt (pctChange (vals ps)) = some v) (hv0 : v ≠ 0) :
    beta ps ps = Except.ok (some 1) ∧ alpha g ps ps rfr = Except.ok (some 0) := by
  have hnd : ((dailyIdx ps).map Prod.fst).Nodup := by
    rw [dailyIdx_keys]
    exact nodup_tail_of_chain hts
  have halign : alignSeries (dailyIdx ps) (dailyIdx ps)
      = (dailyIdx ps).map (fun p => (p.1, p.2, p.2)) :=
    alignSeries_of_lookup (lookup_self hnd)
  have hbench : benchVals ((dailyIdx ps).map (fun p => (p.1, p.2, p.2)))
      = pctChange (vals ps) := by
    rw [benchVals, List.map_map]
    exact dailyIdx_snd ps
  have hpair : pairVals ((dailyIdx ps).map (fun p => (p.1, p.2, p.2)))
      = (pctChange (vals ps)).map (fun x => (x, x)) := by
    rw [pairVals, List.map_map, ← dailyIdx_snd ps, List.map_map]
    rfl
  have hcov : sampleCovOpt (pairVals ((dailyIdx ps).map (fun p => (p.1, p.2, p.2))))
      = some v := by
    rw [hpair, sampleCovOpt_diag, hv]
  have hbeta : beta ps ps = Except.ok (some 1) := by
    rw [beta, daily_returnsIdx_ok h2, ok_bind, ok_bind]
    simp only [halign, hbench, hcov, hv]
    simp [hv0, div_self hv0]
    rfl
  refine ⟨hbeta, ?_⟩
  rw [alpha, cagr_ok h2, ok_bind, ok_bind, hbeta, ok_bind]
  have : cagrCore ps - (((rfr.getD g : ℚ) : ℝ)
      + ((1 : ℚ) : ℝ) * (cagrCore ps - ((rfr.getD g : ℚ) : ℝ))) = 0 := by
    push_cast
    ring
  rw [Option.map_some', this]
  rfl

/-- Witness for the amended C5 at the series `[(0, 1), (1, 2), (2, 3)]`
(daily returns `[1, 1/2]`, sample variance `1/8 ≠ 0`). -/
theorem c5_beta_alpha_self_witness :
    (List.Chain' (· < ·) (tstamps [((0 : ℤ), (1 : ℚ)), (1, 2), (2, 3)])
      ∧ 2 ≤ (vals [((0 : ℤ), (1 : ℚ)), (1, 2), (2, 3)]).length
      ∧ sampleVarOpt (pctChange (vals [((0 : ℤ), (1 : ℚ)), (1, 2), (2, 3)])) = some (1 / 8)
      ∧ (1 / 8 : ℚ) ≠ 0)
    ∧ (beta [((0 : ℤ), (1 : ℚ)), (1, 2), (2, 3)] [((0 : ℤ), (1 : ℚ)), (1, 2), (2, 3)]
        = Except.ok (some 1)
      ∧ alpha (1 / 25) [((0 : ℤ), (1 : ℚ)), (1, 2), (2, 3)]
          [((0 : ℤ), (1 : ℚ)), (1, 2), (2, 3)] (some (3 / 100)) = Except.ok (some 0)) :=
  ⟨⟨by simp [tstamps], by simp [vals],
    by norm_num [sampleVarOpt, pctChange, vals, listMean], by norm_num⟩,
   c5_beta_alpha_self (1 / 25) [((0 : ℤ), (1 : ℚ)), (1, 2), (2, 3)] (some (3 / 100)) (1 / 8)
     (by simp [tstamps]) (by simp [vals])
     (by norm_num [sampleVarOpt, pctChange, vals, listMean]) (by norm_num)⟩

/-! ### Claim C10 -/

theorem sorted_getD_le {s : List ℚ} (hs : List.Pairwise (· ≤ ·) s) {i j : ℕ}
    (hij : i ≤ j) (hj : j < s.length) : s.getD i 0 ≤ s.getD j 0 := by
  rcases eq_or_lt_of_le hij with rfl | hlt
  · exact le_refl _
  · have hi : i < s.length := lt_trans hlt hj
    rw [List.getD_eq_getElem s 0 hi, List.getD_eq_getElem s 0 hj]
    exact List.Sorted.rel_get_of_lt hs (a := ⟨i, hi⟩) (b := ⟨j, hj⟩) hlt

theorem mergeSort_le_sorted (rs : List ℚ) :
    List.Pairwise (· ≤ ·) (rs.mergeSort (fun a b => decide (a ≤ b))) := by
  have htrans : ∀ a b c : ℚ, decide (a ≤ b) = true → decide (b ≤ c) = true →
      decide (a ≤ c) = true := by
    intro a b c hab hbc
    simp only [decide_eq_true_eq] at hab hbc ⊢
    exact le_trans hab hbc
  have htotal : ∀ a b : ℚ, (decide (a ≤ b) || decide (b ≤ a)) = true := by
    intro a b
    rcases le_total a b with h | h <;> simp [h]
  exact (List.sorted_mergeSort htrans htotal rs).imp (fun h => of_decide_eq_true h)

/-- The linear-interpolated empirical percentile of a nonempty sample, for
`0 ≤ q ≤ 100`, is at least one of the sample points (it never falls below the
minimum). -/
theorem exists_mem_le_percentile (rs : List ℚ) (q : ℚ) (hne : rs ≠ [])
    (hq0 : 0 ≤ q) (hq100 : q ≤ 100) : ∃ r ∈ rs, r ≤ percentile rs q := by
  have hperm : (rs.mergeSort (fun a b => decide (a ≤ b))).Perm rs :=
    List.mergeSort_perm rs _
  have hsorted := mergeSort_le_sorted rs
  set s := rs.mergeSort (fun a b => decide (a ≤ b)) with hs
  have hn1 : 1 ≤ s.length := by
    rw [hperm.length_eq]
    exact List.length_pos.mpr hne
  set rank : ℚ := q * ((s.length : ℚ) - 1) / 100 with hrank
  set lo : ℕ := (⌊rank⌋).toNat with hlo
  set hi : ℕ := min (lo + 1) (s.length - 1) with hhi
  set frac : ℚ := rank - ((⌊rank⌋ : ℤ) : ℚ) with hfrac
  have hunfold : percentile rs q = s.getD lo 0 + frac * (s.getD hi 0 - s.getD lo 0) := rfl
  have hnq : (1 : ℚ) ≤ (s.length : ℚ) := by exact_mod_cast hn1
  have hrank0 : 0 ≤ rank := by
    apply div_nonneg _ (by norm_num)
    exact mul_nonneg hq0 (by linarith)
  have hrankle : rank ≤ (s.length : ℚ) - 1 := by
    rw [hrank, div_le_iff₀ (by norm_num : (0:ℚ) < 100)]
    calc q * ((s.length : ℚ) - 1) ≤ 100 * ((s.length : ℚ) - 1) :=
          mul_le_mul_of_nonneg_right hq100 (by linarith)
      _ = ((s.length : ℚ) - 1) * 100 := by ring
  have hfloor_nonneg : 0 ≤ ⌊rank⌋ := Int.floor_nonneg.mpr hrank0
  have hfloor_le : ⌊rank⌋ ≤ (s.length : ℤ) - 1 := by
    have h1 : ⌊rank⌋ ≤ ⌊(s.length : ℚ) - 1⌋ := Int.floor_le_floor hrankle
    have h2 : ((s.length : ℚ) - 1) = (((s.length : ℤ) - 1 : ℤ) : ℚ) := by push_cast; ring
    rw [h2, Int.floor_intCast] at h1
    exact h1
  have hlo_lt : lo < s.length := by
    rw [hlo]
    omega
  have hhi_lt : hi < s.length := by
    rw [hhi]
    omega
  have hlo_le_hi : lo ≤ hi := by
    rw [hhi]
    omega
  have hfrac0 : 0 ≤ frac := by
    rw [hfrac]
    have := Int.floor_le rank
    linarith
  have hmono : s.getD lo 0 ≤ s.getD hi 0 := sorted_getD_le hsorted hlo_le_hi hhi_lt
  have h0lo : s.getD 0 0 ≤ s.getD lo 0 := sorted_getD_le hsorted (Nat.zero_le lo) hlo_lt
  have hmem : s.getD 0 0 ∈ rs := by
    have h0 : 0 < s.length := hn1
    rw [List.getD_eq_getElem s 0 h0]
    exact hperm.mem_iff.mp (List.getElem_mem h0)
  refine ⟨s.getD 0 0, hmem, ?_⟩
  rw [hunfold]
  have hstep : 0 ≤ frac * (s.getD hi 0 - s.getD lo 0) :=
    mul_nonneg hfrac0 (by linarith)
  linarith

/-- Claim C10: for every valid price series (length at least 2) and every
confidence in (0, 1), some daily return is at or below
`value_at_risk(prices, confidence)` (the linear-interpolated empirical
percentile never falls below the minimum return), so `conditional_va_risk`
returns the mean of a non-empty selection, never the undefined (NaN) mean of
an empty one. -/
theorem c10_cvar_nonempty (xs : List ℚ) (conf : ℚ) (h2 : 2 ≤ xs.length)
    (hc0 : 0 < conf) (hc1 : conf < 1) :
    (∃ r ∈ pctChange xs, r ≤ percentile (pctChange xs) ((1 - conf) * 100))
    ∧ conditional_va_risk xs conf
        = Except.ok (some (listMean ((pctChange xs).filter
            (fun r => r ≤ percentile (pctChange xs) ((1 - conf) * 100))))) := by
  have hne : pctChange xs ≠ [] := by
    apply List.length_pos.mp
    rw [pctChange_length]
    omega
  have hq0 : 0 ≤ (1 - conf) * 100 := by nlinarith
  have hq100 : (1 - conf) * 100 ≤ 100 := by nlinarith
  have hex := exists_mem_le_percentile (pctChange xs) ((1 - conf) * 100) hne hq0 hq100
  refine ⟨hex, ?_⟩
  obtain ⟨r, hr, hrle⟩ := hex
  rw [conditional_va_risk, daily_returns_ok h2, ok_bind, value_at_risk,
    daily_returns_ok h2, map_ok, ok_bind]
  have hfne : (pctChange xs).filter
      (fun r => r ≤ percentile (pctChange xs) ((1 - conf) * 100)) ≠ [] := by
    apply List.ne_nil_of_mem (a := r)
    exact List.mem_filter.mpr ⟨hr, by simpa using hrle⟩
  rw [meanOpt, if_neg (by simp [List.isEmpty_eq_false.mpr hfne])]
  rfl

/-- Witness for C10 at the series `[1, 2, 4]` with 95% confidence. -/
theorem c10_cvar_nonempty_witness :
    (2 ≤ ([1, 2, 4] : List ℚ).length ∧ 0 < (19 / 20 : ℚ) ∧ (19 / 20 : ℚ) < 1)
    ∧ ((∃ r ∈ pctChange [1, 2, 4],
          r ≤ percentile (pctChange [1, 2, 4]) ((1 - 19 / 20) * 100))
       ∧ conditional_va_risk [1, 2, 4] (19 / 20)
          = Except.ok (some (listMean ((pctChange [1, 2, 4]).filter
              (fun r => r ≤ percentile (pctChange [1, 2, 4]) ((1 - 19 / 20) * 100)))))) :=
  ⟨⟨by norm_num, by norm_num, by norm_num⟩,
   c10_cvar_nonempty [1, 2, 4] (19 / 20) (by norm_num) (by norm_num) (by norm_num)⟩

/-! ### Claim C8 -/

theorem rollingApply_length (w : ℕ) (f : List ℚ → Option ℚ) (xs : List ℚ) :
    (rollingApply w f xs).length = xs.length := by
  simp [rollingApply]

theorem rollingApply_getElem? {w : ℕ} {f : List ℚ → Option ℚ} {xs : List ℚ} {i : ℕ}
    (hi : i < xs.length) :
    (rollingApply w f xs)[i]? = some (if i + 1 < w then none else f (windowAt xs i w)) := by
  rw [rollingApply, List.getElem?_map, List.getElem?_range hi]
  rfl

theorem rollingApply_getD_some {w : ℕ} {f : List ℚ → Option ℚ} {xs : List ℚ} {i : ℕ} {x : ℚ}
    (h : (rollingApply w f xs).getD i none = some x) :
    ∃ win, f win = some x := by
  by_cases hi : i < xs.length
  · rw [List.getD_eq_getElem?_getD, rollingApply_getElem? hi] at h
    by_cases hw : i + 1 < w
    · rw [if_pos hw] at h
      exact absurd h (by simp)
    · rw [if_neg hw] at h
      exact ⟨windowAt xs i w, h⟩
  · exfalso
    rw [List.getD_eq_getElem?_getD, List.getElem?_eq_none
      (by rw [rollingApply_length]; omega)] at h
    simp at h

theorem sampleVarOpt_nonneg {l : List ℚ} {v : ℚ} (h : sampleVarOpt l = some v) :
    0 ≤ v := by
  rw [sampleVarOpt] at h
  by_cases hc : 2 ≤ l.length
  · rw [if_pos hc, Option.some_inj] at h
    subst h
    apply div_nonneg
    · apply List.sum_nonneg
      intro x hx
      obtain ⟨a, _, rfl⟩ := List.mem_map.mp hx
      positivity
    · have : (2 : ℚ) ≤ (l.length : ℚ) := by exact_mod_cast hc
      linarith
  · rw [if_neg hc] at h
    exact absurd h (by simp)

theorem qlt_sqrt_iff (t x : ℚ) :
    (qlt_sqrt t x = true) ↔ ((t : ℝ) < Real.sqrt ((x : ℚ) : ℝ)) := by
  rw [qlt_sqrt]
  by_cases ht : 0 ≤ t
  · rw [if_pos ht]
    simp only [decide_eq_true_eq]
    rw [Real.lt_sqrt (by exact_mod_cast ht : (0 : ℝ) ≤ ((t : ℚ) : ℝ))]
    constructor
    · intro h
      exact_mod_cast h
    · intro h
      exact_mod_cast h
  · rw [if_neg ht]
    simp only [true_iff]
    push_neg at ht
    calc ((t : ℚ) : ℝ) < 0 := by exact_mod_cast ht
      _ ≤ Real.sqrt ((x : ℚ) : ℝ) := Real.sqrt_nonneg _

theorem mapError_ok {α : Type} (a : α) :
    Except.mapError toRegimeError (Except.ok a : Except FluxError α) = Except.ok a := rfl

theorem regime_error_bind {α β : Type} (e : RegimeError) (f : α → Except RegimeError β) :
    ((Except.error e : Except RegimeError α) >>= f) = Except.error e := rfl

theorem regime_ok_bind {α β : Type} (a : α) (f : α → Except RegimeError β) :
    (Except.ok a >>= f) = f a := rfl

theorem all_contains_self (l : List ℤ) : (l.all (fun x => l.contains x)) = true := by
  rw [List.all_eq_true]
  intro x hx
  simpa using hx

theorem maskAssign_ok {target : List (ℤ × Option String)} {mask : List (ℤ × Bool)}
    {value : String}
    (h : (target.map Prod.fst).all (fun ts => (mask.map Prod.fst).contains ts) = true) :
    maskAssign target mask value = Except.ok (target.map (fun p =>
      if (mask.lookup p.1).getD false then (p.1, some value) else p)) := by
  rw [maskAssign, if_pos h]

theorem maskAssign_err {target : List (ℤ × Option String)} {mask : List (ℤ × Bool)}
    {value : String}
    (h : (target.map Prod.fst).all (fun ts => (mask.map Prod.fst).contains ts) = false) :
    maskAssign target mask value = Except.error (RegimeError.indexingError
      "unalignable boolean Series provided as indexer") := by
  rw [maskAssign, if_neg (by rw [h]; exact Bool.false_ne_true)]

theorem length_tstamps (ps : PSeries) : (tstamps ps).length = ps.length := by
  rw [tstamps, List.length_map]

theorem length_vals (ps : PSeries) : (vals ps).length = ps.length := by
  rw [vals, List.length_map]

theorem emptyStrSeries_keys (idx : List ℤ) :
    (emptyStrSeries idx).map Prod.fst = idx := by
  rw [emptyStrSeries, List.map_map]
  have hid : (Prod.fst ∘ fun ts : ℤ => (ts, (none : Option String))) = id := rfl
  rw [hid, List.map_id]

theorem assigned_keys (target : List (ℤ × Option String)) (mask : List (ℤ × Bool))
    (value : String) :
    ((target.map (fun p =>
      if (mask.lookup p.1).getD false then (p.1, some value) else p)).map Prod.fst)
      = target.map Prod.fst := by
  rw [List.map_map]
  apply List.map_congr_left
  intro p _
  by_cases h : (mask.lookup p.1).getD false <;> simp [h]

theorem map_fst_zipWith_pair {β : Type} (g : ℤ → β → Bool) (l1 : List ℤ) (l2 : List β)
    (h : l1.length ≤ l2.length) :
    (List.zipWith (fun ts b => (ts, g ts b)) l1 l2).map Prod.fst = l1 := by
  induction l1 generalizing l2 with
  | nil => rfl
  | cons a u ih =>
    cases l2 with
    | nil => simp at h
    | cons b v =>
      rw [List.zipWith_cons_cons, List.map_cons, ih v (by simpa using h)]

theorem trendMaskGT_keys (ps : PSeries) (sw lw : ℕ) :
    (trendMaskGT ps sw lw).map Prod.fst = tstamps ps := by
  rw [trendMaskGT]
  refine map_fst_zipWith_pair _ _ _ ?_
  rw [List.length_zip, rollingApply_length, rollingApply_length, length_tstamps,
    length_vals, Nat.min_self]

theorem trendMaskLE_keys (ps : PSeries) (sw lw : ℕ) :
    (trendMaskLE ps sw lw).map Prod.fst = tstamps ps := by
  rw [trendMaskLE]
  refine map_fst_zipWith_pair _ _ _ ?_
  rw [List.length_zip, rollingApply_length, rollingApply_length, length_tstamps,
    length_vals, Nat.min_self]

theorem volMaskGT_keys (rs : List (ℤ × ℚ)) (vw : ℕ) (t : ℚ) :
    (volMaskGT rs vw t).map Prod.fst = rs.map Prod.fst := by
  rw [volMaskGT]
  refine map_fst_zipWith_pair _ _ _ ?_
  rw [List.length_map, rollingApply_length, List.length_map]

/-- Claim C8 (code bug): the claim says `detect_regime` labels each
timestamp's trend ("uptrend" iff `short_ma > long_ma`, else "downtrend") and
volatility regime ("high_vol" iff the annualized rolling volatility exceeds
the threshold, else "low_vol").  In fact `detect_regime` never returns a
frame on any series that passes validation: the assignment
`volatility_regime[roll_vol > vol_threshold] = "high_vol"`
(analytics.py line 305) indexes a Series on the full price index with a
boolean Series indexed by the *return* timestamps (`prices.index[1:]`); the
first price timestamp is absent from the mask's index (timestamps are
strictly increasing), so pandas raises
`IndexingError("Unalignable boolean Series provided as indexer")`.  The two
trend mask assignments align (full index on both sides) and succeed first. -/
theorem c8_detect_regime_raises (ps : PSeries) (sw lw vw : ℕ) (t : ℚ)
    (h2 : 2 ≤ ps.length) (hts : List.Chain' (· < ·) (tstamps ps)) :
    detect_regime ps sw lw vw t
      = Except.error (RegimeError.indexingError
          "unalignable boolean Series provided as indexer") := by
  match ps, h2, hts with
  | p :: pr, h2, hts =>
    have h2v : 2 ≤ (vals (p :: pr)).length := by
      rw [length_vals]
      exact h2
    have hnmem : (tstamps pr).contains p.1 = false := by
      have hpw : List.Pairwise (· < ·) (p.1 :: tstamps pr) :=
        List.chain'_iff_pairwise.mp hts
      rcases List.pairwise_cons.mp hpw with ⟨hlt, _⟩
      have hnm : p.1 ∉ tstamps pr := fun hm => absurd (hlt _ hm) (lt_irrefl _)
      simpa using hnm
    have hc1 : ((emptyStrSeries (tstamps (p :: pr))).map Prod.fst).all
        (fun ts => ((trendMaskGT (p :: pr) sw lw).map Prod.fst).contains ts) = true := by
      rw [emptyStrSeries_keys, trendMaskGT_keys]
      exact all_contains_self _
    have hc2 : (((emptyStrSeries (tstamps (p :: pr))).map (fun q =>
        if ((trendMaskGT (p :: pr) sw lw).lookup q.1).getD false
        then (q.1, some "uptrend") else q)).map Prod.fst).all
        (fun ts => ((trendMaskLE (p :: pr) sw lw).map Prod.fst).contains ts) = true := by
      rw [assigned_keys, emptyStrSeries_keys, trendMaskLE_keys]
      exact all_contains_self _
    have hfalse : ((emptyStrSeries (tstamps (p :: pr))).map Prod.fst).all
        (fun ts => ((volMaskGT (dailyIdx (p :: pr)) vw t).map Prod.fst).contains ts)
        = false := by
      rw [emptyStrSeries_keys, volMaskGT_keys, dailyIdx_keys]
      have hcons : tstamps (p :: pr) = p.1 :: tstamps pr := rfl
      rw [hcons, List.tail_cons, List.all_cons, hnmem, Bool.false_and]
    rw [detect_regime, daily_returnsIdx_ok h2v, mapError_ok, regime_ok_bind,
      maskAssign_ok hc1, regime_ok_bind, maskAssign_ok hc2, regime_ok_bind,
      maskAssign_err hfalse, regime_error_bind]

/-- Witness for C8: `detect_regime` on the concrete valid two-point series
with timestamps 0, 1 and prices 100, 101 raises the IndexingError. -/
theorem c8_detect_regime_raises_witness :
    (2 ≤ ([((0 : ℤ), (100 : ℚ)), (1, 101)] : PSeries).length
      ∧ List.Chain' (· < ·) (tstamps [((0 : ℤ), (100 : ℚ)), (1, 101)]))
    ∧ detect_regime [((0 : ℤ), (100 : ℚ)), (1, 101)] 20 50 21 (1 / 4)
        = Except.error (RegimeError.indexingError
            "unalignable boolean Series provided as indexer") :=
  ⟨⟨by norm_num, by simp [tstamps]⟩,
   c8_detect_regime_raises [((0 : ℤ), (100 : ℚ)), (1, 101)] 20 50 21 (1 / 4)
     (by norm_num) (by simp [tstamps])⟩

/-! ### Entry lemmas for the rolling functions -/

theorem map_pure {α β : Type} (f : α → β) (a : α) :
    Except.map f (pure a : Except FluxError α) = Except.ok (f a) := rfl

theorem benchVals_eq_pairVals_snd (l : List (ℤ × ℚ × ℚ)) :
    benchVals l = (pairVals l).map Prod.snd := by
  rw [benchVals, pairVals, List.map_map]
  rfl

theorem windowAt_map (f : ℚ → ℚ) (xs : List ℚ) (i w : ℕ) :
    windowAt (xs.map f) i w = (windowAt xs i w).map f := by
  rw [windowAt, windowAt, List.map_drop, List.map_take]

theorem windowAt_getD_last {xs : List ℚ} {i w : ℕ} (hiw : ¬ i + 1 < w)
    (hw : 1 ≤ w) :
    (windowAt xs i w).getD (w - 1) 0 = xs.getD i 0 := by
  rw [windowAt, List.getD_eq_getElem?_getD, List.getElem?_drop, List.getElem?_take]
  have harith : i + 1 - w + (w - 1) = i := by omega
  rw [harith, if_pos (by omega : i < i + 1), ← List.getD_eq_getElem?_getD]

theorem rolling_volatility_entry (xs : List ℚ) (w : ℕ) (ann : Bool) (i : ℕ)
    (d : Option ℝ) (hx : 2 ≤ xs.length) (hi : i < (pctChange xs).length) :
    (rolling_volatility xs w ann).map (fun l => l.getD i d)
      = Except.ok (Option.map (fun v : ℚ =>
          Real.sqrt ((v : ℚ) : ℝ) * (if ann then Real.sqrt ((252 : ℚ) : ℝ) else 1))
          (if i + 1 < w then none else sampleVarOpt (windowAt (pctChange xs) i w))) := by
  rw [rolling_volatility, daily_returns_ok hx, map_ok, map_ok]
  congr 1
  rw [List.getD_eq_getElem?_getD, List.getElem?_map, rollingApply_getElem? hi]
  rfl

theorem rolling_sharpe_entry (g : ℚ) (xs : List ℚ) (w : ℕ) (rfv : ℚ) (i : ℕ)
    (d : Option ℝ) (hx : 2 ≤ xs.length) (hi : i < (pctChange xs).length) :
    (rolling_sharpe g xs w (some rfv)).map (fun l => l.getD i d)
      = Except.ok (
          match (if i + 1 < w then none
                  else meanOpt (windowAt ((pctChange xs).map
                    (fun x => x - rfv / TRADING_DAYS_PER_YEAR)) i w)),
                (if i + 1 < w then none
                  else sampleVarOpt (windowAt (pctChange xs) i w)) with
          | some m, some v =>
              some (((m : ℚ) : ℝ) / Real.sqrt ((v : ℚ) : ℝ) * Real.sqrt ((252 : ℚ) : ℝ))
          | _, _ => none) := by
  rw [rolling_sharpe, daily_returns_ok hx]
  rw [map_ok]
  simp only [Option.getD_some]
  rw [map_ok]
  congr 1
  have hie : i < ((pctChange xs).map (fun x => x - rfv / TRADING_DAYS_PER_YEAR)).length := by
    rw [List.length_map]
    exact hi
  rw [List.getD_eq_getElem?_getD, List.getElem?_zipWith, rollingApply_getElem? hie,
    rollingApply_getElem? hi]
  rfl

theorem z_score_entry (xs : List ℚ) (w : ℕ) (i : ℕ) (d : Option ℝ)
    (hx : 2 ≤ xs.length) (hi : i < xs.length) :
    (z_score xs w).map (fun l => l.getD i d)
      = Except.ok (
          match ((if i + 1 < w then none else meanOpt (windowAt xs i w)),
                 (if i + 1 < w then none else sampleVarOpt (windowAt xs i w))) with
          | (some m, some v) =>
              some (((xs.getD i 0 - m : ℚ) : ℝ) / Real.sqrt ((v : ℚ) : ℝ))
          | _ => none) := by
  rw [z_score, validate_prices_ok hx, ok_bind, map_pure]
  congr 1
  rw [List.getD_eq_getElem?_getD, List.getElem?_zipWith, List.zip_eq_zipWith,
    List.getElem?_zipWith, rollingApply_getElem? hi, rollingApply_getElem? hi,
    List.getElem?_eq_getElem hi, ← List.getD_eq_getElem (d := 0) xs hi]
  rfl

theorem rolling_beta_entry (ps bp : PSeries) (w : ℕ) (i : ℕ) (d : Option ℚ)
    (hp : 2 ≤ (vals ps).length) (hbp : 2 ≤ (vals bp).length)
    (hi : i < (alignedReturns ps bp).length) :
    (rolling_beta ps bp w).map (fun l => l.getD i d)
      = Except.ok (if i < w then none
          else
            match sampleVarOpt (benchVals
                (((alignedReturns ps bp).take i).drop (i - w))) with
            | none => none
            | some v =>
                if v ≠ 0
                then (sampleCovOpt (pairVals
                    (((alignedReturns ps bp).take i).drop (i - w)))).map (fun c => c / v)
                else none) := by
  rw [rolling_beta, daily_returnsIdx_ok hp, ok_bind, daily_returnsIdx_ok hbp, ok_bind,
    map_pure]
  have halign : alignSeries (dailyIdx ps) (dailyIdx bp) = alignedReturns ps bp := rfl
  rw [halign]
  congr 1
  rw [List.getD_eq_getElem?_getD, List.getElem?_map, List.getElem?_range hi]
  rfl

/-! ### Claim C6 -/

/-- Claim C6: for every pair of valid price series and window `w`,
`rolling_beta` yields NaN at every aligned index `i < w`; at every index
`i ≥ w` it equals the covariance/variance ratio over the trailing `w` aligned
(asset, benchmark) return observations (the `w` observations
`aligned[i-w..i-1]`, the slice `aligned.iloc[i-window:i]` of the source); a
window whose benchmark variance is zero yields NaN — unlike point `beta`,
which returns `0.0` when the aligned benchmark variance is zero. -/
theorem c6_rolling_beta_window (ps bp : PSeries) (w : ℕ)
    (hp : 2 ≤ (vals ps).length) (hbp : 2 ≤ (vals bp).length) :
    (rolling_beta ps bp w).map List.length = Except.ok (alignedReturns ps bp).length
    ∧ (∀ i, i < w → i < (alignedReturns ps bp).length →
        (rolling_beta ps bp w).map (fun l => l.getD i (some 0)) = Except.ok none)
    ∧ (∀ i, w ≤ i → i < (alignedReturns ps bp).length →
        (rolling_beta ps bp w).map (fun l => l.getD i (some 0))
          = Except.ok (
              match sampleVarOpt (benchVals
                  (((alignedReturns ps bp).take i).drop (i - w))) with
              | none => none
              | some v =>
                  if v = 0 then none
                  else (sampleCovOpt (pairVals
                      (((alignedReturns ps bp).take i).drop (i - w)))).map (fun c => c / v)))
    ∧ (∀ i, w ≤ i → i < (alignedReturns ps bp).length →
        sampleVarOpt (benchVals (((alignedReturns ps bp).take i).drop (i - w))) = some 0 →
        (rolling_beta ps bp w).map (fun l => l.getD i (some 0)) = Except.ok none)
    ∧ (sampleVarOpt (benchVals (alignedReturns ps bp)) = some 0 →
        beta ps bp = Except.ok (some 0)) := by
  have hmain : ∀ i, w ≤ i → i < (alignedReturns ps bp).length →
      (rolling_beta ps bp w).map (fun l => l.getD i (some 0))
        = Except.ok (
            match sampleVarOpt (benchVals
                (((alignedReturns ps bp).take i).drop (i - w))) with
            | none => none
            | some v =>
                if v = 0 then none
                else (sampleCovOpt (pairVals
                    (((alignedReturns ps bp).take i).drop (i - w)))).map (fun c => c / v)) := by
    intro i hwi hi
    rw [rolling_beta_entry ps bp w i (some 0) hp hbp hi, if_neg (by omega : ¬ i < w)]
    rcases hv : sampleVarOpt (benchVals (((alignedReturns ps bp).take i).drop (i - w)))
      with _ | v
    · rfl
    · by_cases hv0 : v = 0
      · subst hv0
        simp
      · simp [hv0]
  refine ⟨?_, ?_, hmain, ?_, ?_⟩
  · rw [rolling_beta, daily_returnsIdx_ok hp, ok_bind, daily_returnsIdx_ok hbp, ok_bind,
      map_pure]
    congr 1
    rw [List.length_map, List.length_range]
    rfl
  · intro i hiw hi
    rw [rolling_beta_entry ps bp w i (some 0) hp hbp hi, if_pos hiw]
  · intro i hwi hi hv0
    rw [hmain i hwi hi, hv0]
    simp
  · intro hv0
    rw [beta, daily_returnsIdx_ok hp, ok_bind, daily_returnsIdx_ok hbp, ok_bind]
    have halign : alignSeries (dailyIdx ps) (dailyIdx bp) = alignedReturns ps bp := rfl
    simp only [halign, hv0]
    simp
    rfl

/-- Witness for C6 at asset `[(0,1),(1,2),(2,4)]`, benchmark
`[(0,1),(1,2),(2,3)]`, window 1. -/
theorem c6_rolling_beta_window_witness :
    (2 ≤ (vals [((0 : ℤ), (1 : ℚ)), (1, 2), (2, 4)]).length
      ∧ 2 ≤ (vals [((0 : ℤ), (1 : ℚ)), (1, 2), (2, 3)]).length)
    ∧ ((rolling_beta [((0 : ℤ), (1 : ℚ)), (1, 2), (2, 4)]
          [((0 : ℤ), (1 : ℚ)), (1, 2), (2, 3)] 1).map List.length
        = Except.ok (alignedReturns [((0 : ℤ), (1 : ℚ)), (1, 2), (2, 4)]
            [((0 : ℤ), (1 : ℚ)), (1, 2), (2, 3)]).length
      ∧ (∀ i, i < 1 →
          i < (alignedReturns [((0 : ℤ), (1 : ℚ)), (1, 2), (2, 4)]
              [((0 : ℤ), (1 : ℚ)), (1, 2), (2, 3)]).length →
          (rolling_beta [((0 : ℤ), (1 : ℚ)), (1, 2), (2, 4)]
              [((0 : ℤ), (1 : ℚ)), (1, 2), (2, 3)] 1).map (fun l => l.getD i (some 0))
            = Except.ok none)
      ∧ (∀ i, 1 ≤ i →
          i < (alignedReturns [((0 : ℤ), (1 : ℚ)), (1, 2), (2, 4)]
              [((0 : ℤ), (1 : ℚ)), (1, 2), (2, 3)]).length →
          (rolling_beta [((0 : ℤ), (1 : ℚ)), (1, 2), (2, 4)]
              [((0 : ℤ), (1 : ℚ)), (1, 2), (2, 3)] 1).map (fun l => l.getD i (some 0))
            = Except.ok (
                match sampleVarOpt (benchVals
                    (((alignedReturns [((0 : ℤ), (1 : ℚ)), (1, 2), (2, 4)]
                        [((0 : ℤ), (1 : ℚ)), (1, 2), (2, 3)]).take i).drop (i - 1))) with
                | none => none
                | some v =>
                    if v = 0 then none
                    else (sampleCovOpt (pairVals
                        (((alignedReturns [((0 : ℤ), (1 : ℚ)), (1, 2), (2, 4)]
                            [((0 : ℤ), (1 : ℚ)), (1, 2), (2, 3)]).take i).drop
                          (i - 1)))).map (fun c => c / v)))
      ∧ (∀ i, 1 ≤ i →
          i < (alignedReturns [((0 : ℤ), (1 : ℚ)), (1, 2), (2, 4)]
              [((0 : ℤ), (1 : ℚ)), (1, 2), (2, 3)]).length →
          sampleVarOpt (benchVals
              (((alignedReturns [((0 : ℤ), (1 : ℚ)), (1, 2), (2, 4)]
                  [((0 : ℤ), (1 : ℚ)), (1, 2), (2, 3)]).take i).drop (i - 1))) = some 0 →
          (rolling_beta [((0 : ℤ), (1 : ℚ)), (1, 2), (2, 4)]
              [((0 : ℤ), (1 : ℚ)), (1, 2), (2, 3)] 1).map (fun l => l.getD i (some 0))
            = Except.ok none)
      ∧ (sampleVarOpt (benchVals (alignedReturns [((0 : ℤ), (1 : ℚ)), (1, 2), (2, 4)]
            [((0 : ℤ), (1 : ℚ)), (1, 2), (2, 3)])) = some 0 →
          beta [((0 : ℤ), (1 : ℚ)), (1, 2), (2, 4)]
              [((0 : ℤ), (1 : ℚ)), (1, 2), (2, 3)] = Except.ok (some 0))) :=
  ⟨⟨by norm_num [vals], by norm_num [vals]⟩,
   c6_rolling_beta_window [((0 : ℤ), (1 : ℚ)), (1, 2), (2, 4)]
     [((0 : ℤ), (1 : ℚ)), (1, 2), (2, 3)] 1 (by norm_num [vals]) (by norm_num [vals])⟩

/-! ### Claim C2 -/

/-- Counterexample to claim C2 as stated, in two parts.
(a) `z_score` on the valid series `[1, 2]` with window 1 returns a series of
length 2 (the *price*-series length), not the return-series length 1.
(b) `rolling_beta` entries at `i ≥ w` are not functions of the trailing `w`
aligned return observations ending at `i`: the asset series
`[1, 2, 4, 8]` and `[1, 3, 6, 12]` against benchmark `[1, 2, 3, 4]` have
identical aligned (asset, bench) pairs at indices 1 and 2, yet their
`rolling_beta(window = 2)` entries at index 2 are `0` and `2` — the source
slice `aligned.iloc[i-window:i]` ends at `i - 1`, and index 0 (outside the
claimed window) differs. -/
theorem c2_rolling_counterexample :
    ((z_score [1, 2] 1).map List.length = Except.ok 2
      ∧ (pctChange [1, 2]).length = 1
      ∧ (2 : ℕ) ≠ 1)
    ∧ (pairVals (((alignedReturns [((0 : ℤ), (1 : ℚ)), (1, 2), (2, 4), (3, 8)]
          [((0 : ℤ), (1 : ℚ)), (1, 2), (2, 3), (3, 4)]).take 3).drop 1)
        = pairVals (((alignedReturns [((0 : ℤ), (1 : ℚ)), (1, 3), (2, 6), (3, 12)]
            [((0 : ℤ), (1 : ℚ)), (1, 2), (2, 3), (3, 4)]).take 3).drop 1)
      ∧ (rolling_beta [((0 : ℤ), (1 : ℚ)), (1, 2), (2, 4), (3, 8)]
          [((0 : ℤ), (1 : ℚ)), (1, 2), (2, 3), (3, 4)] 2).map (fun l => l.getD 2 none)
          = Except.ok (some 0)
      ∧ (rolling_beta [((0 : ℤ), (1 : ℚ)), (1, 3), (2, 6), (3, 12)]
          [((0 : ℤ), (1 : ℚ)), (1, 2), (2, 3), (3, 4)] 2).map (fun l => l.getD 2 none)
          = Except.ok (some 2)
      ∧ (some (0 : ℚ)) ≠ some 2) := by
  have hA : dailyIdx [((0 : ℤ), (1 : ℚ)), (1, 2), (2, 4), (3, 8)]
      = [(1, 1), (2, 1), (3, 1)] := by
    simp [dailyIdx, tstamps, vals, pctChange]
    norm_num
  have hA2 : dailyIdx [((0 : ℤ), (1 : ℚ)), (1, 3), (2, 6), (3, 12)]
      = [(1, 2), (2, 1), (3, 1)] := by
    simp [dailyIdx, tstamps, vals, pctChange]
    norm_num
  have hB : dailyIdx [((0 : ℤ), (1 : ℚ)), (1, 2), (2, 3), (3, 4)]
      = [(1, 1), (2, 1 / 2), (3, 1 / 3)] := by
    simp [dailyIdx, tstamps, vals, pctChange]
    norm_num
  have hABal : alignedReturns [((0 : ℤ), (1 : ℚ)), (1, 2), (2, 4), (3, 8)]
      [((0 : ℤ), (1 : ℚ)), (1, 2), (2, 3), (3, 4)]
      = [(1, 1, 1), (2, 1, 1 / 2), (3, 1, 1 / 3)] := by
    rw [alignedReturns, hA, hB]
    simp [alignSeries, List.lookup]
  have hA2Bal : alignedReturns [((0 : ℤ), (1 : ℚ)), (1, 3), (2, 6), (3, 12)]
      [((0 : ℤ), (1 : ℚ)), (1, 2), (2, 3), (3, 4)]
      = [(1, 2, 1), (2, 1, 1 / 2), (3, 1, 1 / 3)] := by
    rw [alignedReturns, hA2, hB]
    simp [alignSeries, List.lookup]
  refine ⟨⟨rfl, rfl, by norm_num⟩, ?_, ?_, ?_, by norm_num⟩
  · rw [hABal, hA2Bal]
    simp [pairVals]
  · have hi : (2 : ℕ) < (alignedReturns [((0 : ℤ), (1 : ℚ)), (1, 2), (2, 4), (3, 8)]
        [((0 : ℤ), (1 : ℚ)), (1, 2), (2, 3), (3, 4)]).length := by
      rw [hABal]
      norm_num
    rw [rolling_beta_entry _ _ 2 2 none (by norm_num [vals]) (by norm_num [vals]) hi,
      if_neg (by norm_num : ¬ (2 : ℕ) < 2), hABal]
    norm_num [benchVals, pairVals, sampleVarOpt, sampleCovOpt, listMean]
  · have hi : (2 : ℕ) < (alignedReturns [((0 : ℤ), (1 : ℚ)), (1, 3), (2, 6), (3, 12)]
        [((0 : ℤ), (1 : ℚ)), (1, 2), (2, 3), (3, 4)]).length := by
      rw [hA2Bal]
      norm_num
    rw [rolling_beta_entry _ _ 2 2 none (by norm_num [vals]) (by norm_num [vals]) hi,
      if_neg (by norm_num : ¬ (2 : ℕ) < 2), hA2Bal]
    norm_num [benchVals, pairVals, sampleVarOpt, sampleCovOpt, listMean]

/-- Claim C2 amended: for every valid input and window `w ≥ 1`,
`rolling_volatility` and `rolling_sharpe` return series whose length equals
the return-series length, whose first `w - 1` entries are NaN, and whose
entry at each index `i ≥ w - 1` is a deterministic function of exactly the
trailing `w` *return* observations ending at `i` (given the fixed rate and
annualization parameters).  `z_score` satisfies the same three properties
with the *price* series in place of the return series: its output length is
the price-series length.  `rolling_beta` returns a series whose length is
the *aligned* return length, whose first `w` entries (not `w - 1`) are NaN,
and whose entry at each `i ≥ w` is a deterministic function of exactly the
trailing `w` aligned (asset, benchmark) return pairs ending at `i - 1`. -/
theorem c2_rolling_shape (xs ys : List ℚ) (ps bp : PSeries) (w : ℕ) (ann : Bool)
    (g rfv : ℚ)
    (hx : 2 ≤ xs.length) (hy : 2 ≤ ys.length)
    (hp : 2 ≤ (vals ps).length) (hbp : 2 ≤ (vals bp).length)
    (hw : 1 ≤ w) :
    (rolling_volatility xs w ann).map List.length = Except.ok ((pctChange xs).length)
    ∧ (rolling_sharpe g xs w (some rfv)).map List.length
        = Except.ok ((pctChange xs).length)
    ∧ (z_score xs w).map List.length = Except.ok xs.length
    ∧ (rolling_beta ps bp w).map List.length = Except.ok (alignedReturns ps bp).length
    ∧ (∀ i, i + 1 < w → i < (pctChange xs).length →
        (rolling_volatility xs w ann).map (fun l => l.getD i (some 1)) = Except.ok none
        ∧ (rolling_sharpe g xs w (some rfv)).map (fun l => l.getD i (some 1))
            = Except.ok none)
    ∧ (∀ i, i + 1 < w → i < xs.length →
        (z_score xs w).map (fun l => l.getD i (some 1)) = Except.ok none)
    ∧ (∀ i, i < w → i < (alignedReturns ps bp).length →
        (rolling_beta ps bp w).map (fun l => l.getD i (some 1)) = Except.ok none)
    ∧ (∀ i, ¬ i + 1 < w → i < (pctChange xs).length → i < (pctChange ys).length →
        windowAt (pctChange xs) i w = windowAt (pctChange ys) i w →
        (rolling_volatility xs w ann).map (fun l => l.getD i none)
          = (rolling_volatility ys w ann).map (fun l => l.getD i none)
        ∧ (rolling_sharpe g xs w (some rfv)).map (fun l => l.getD i none)
          = (rolling_sharpe g ys w (some rfv)).map (fun l => l.getD i none))
    ∧ (∀ i, ¬ i + 1 < w → i < xs.length → i < ys.length →
        windowAt xs i w = windowAt ys i w →
        (z_score xs w).map (fun l => l.getD i none)
          = (z_score ys w).map (fun l => l.getD i none))
    ∧ (∀ (ps2 bp2 : PSeries) i, 2 ≤ (vals ps2).length → 2 ≤ (vals bp2).length →
        w ≤ i → i < (alignedReturns ps bp).length → i < (alignedReturns ps2 bp2).length →
        pairVals (((alignedReturns ps bp).take i).drop (i - w))
          = pairVals (((alignedReturns ps2 bp2).take i).drop (i - w)) →
        (rolling_beta ps bp w).map (fun l => l.getD i none)
          = (rolling_beta ps2 bp2 w).map (fun l => l.getD i none)) := by
  refine ⟨?_, ?_, ?_, ?_, ?_, ?_, ?_, ?_, ?_, ?_⟩
  · rw [rolling_volatility, daily_returns_ok hx, map_ok, map_ok]
    congr 1
    rw [List.length_map, rollingApply_length]
  · rw [rolling_sharpe, daily_returns_ok hx, map_ok]
    simp only [Option.getD_some]
    rw [map_ok]
    congr 1
    rw [List.length_zipWith, rollingApply_length, rollingApply_length, List.length_map,
      Nat.min_self]
  · rw [z_score, validate_prices_ok hx, ok_bind, map_pure]
    congr 1
    rw [List.length_zipWith, List.zip_eq_zipWith, List.length_zipWith,
      rollingApply_length, rollingApply_length, Nat.min_self]
    omega
  · rw [rolling_beta, daily_returnsIdx_ok hp, ok_bind, daily_returnsIdx_ok hbp, ok_bind,
      map_pure]
    congr 1
    rw [List.length_map, List.length_range]
    rfl
  · intro i hiw hi
    constructor
    · rw [rolling_volatility_entry xs w ann i (some 1) hx hi, if_pos hiw]
      rfl
    · rw [rolling_sharpe_entry g xs w rfv i (some 1) hx hi, if_pos hiw, if_pos hiw]
  · intro i hiw hi
    rw [z_score_entry xs w i (some 1) hx hi, if_pos hiw, if_pos hiw]
  · intro i hiw hi
    rw [rolling_beta_entry ps bp w i (some 1) hp hbp hi, if_pos hiw]
  · intro i hiw hix hiy hwin
    constructor
    · rw [rolling_volatility_entry xs w ann i none hx hix,
        rolling_volatility_entry ys w ann i none hy hiy,
        if_neg hiw, if_neg hiw, hwin]
    · rw [rolling_sharpe_entry g xs w rfv i none hx hix,
        rolling_sharpe_entry g ys w rfv i none hy hiy,
        if_neg hiw, if_neg hiw, if_neg hiw, if_neg hiw,
        windowAt_map, windowAt_map, hwin]
  · intro i hiw hix hiy hwin
    have hpx : xs.getD i 0 = ys.getD i 0 := by
      rw [← @windowAt_getD_last xs i w hiw hw, ← @windowAt_getD_last ys i w hiw hw,
        hwin]
    rw [z_score_entry xs w i none hx hix, z_score_entry ys w i none hy hiy,
      if_neg hiw, if_neg hiw, if_neg hiw, if_neg hiw, hwin, hpx]
  · intro ps2 bp2 i hp2 hbp2 hwi hi1 hi2 hpair
    rw [rolling_beta_entry ps bp w i none hp hbp hi1,
      rolling_beta_entry ps2 bp2 w i none hp2 hbp2 hi2,
      if_neg (by omega : ¬ i < w), if_neg (by omega : ¬ i < w),
      benchVals_eq_pairVals_snd, benchVals_eq_pairVals_snd, hpair]

/-- Witness for the amended C2 at `xs = ys = [1, 2, 4]`,
`ps = bp = [(0,1),(1,2),(2,4)]`, window 1. -/
theorem c2_rolling_shape_witness :
    (2 ≤ ([1, 2, 4] : List ℚ).length
      ∧ 2 ≤ (vals [((0 : ℤ), (1 : ℚ)), (1, 2), (2, 4)]).length
      ∧ 1 ≤ (1 : ℕ))
    ∧ ((rolling_volatility [1, 2, 4] 1 true).map List.length
        = Except.ok ((pctChange [1, 2, 4]).length)
      ∧ (rolling_sharpe (1 / 25) [1, 2, 4] 1 (some (3 / 100))).map List.length
          = Except.ok ((pctChange [1, 2, 4]).length)
      ∧ (z_score [1, 2, 4] 1).map List.length = Except.ok ([1, 2, 4] : List ℚ).length
      ∧ (rolling_beta [((0 : ℤ), (1 : ℚ)), (1, 2), (2, 4)]
          [((0 : ℤ), (1 : ℚ)), (1, 2), (2, 4)] 1).map List.length
          = Except.ok (alignedReturns [((0 : ℤ), (1 : ℚ)), (1, 2), (2, 4)]
              [((0 : ℤ), (1 : ℚ)), (1, 2), (2, 4)]).length
      ∧ (∀ i, i + 1 < 1 → i < (pctChange [1, 2, 4]).length →
          (rolling_volatility [1, 2, 4] 1 true).map (fun l => l.getD i (some 1))
            = Except.ok none
          ∧ (rolling_sharpe (1 / 25) [1, 2, 4] 1 (some (3 / 100))).map
              (fun l => l.getD i (some 1)) = Except.ok none)
      ∧ (∀ i, i + 1 < 1 → i < ([1, 2, 4] : List ℚ).length →
          (z_score [1, 2, 4] 1).map (fun l => l.getD i (some 1)) = Except.ok none)
      ∧ (∀ i, i < 1 → i < (alignedReturns [((0 : ℤ), (1 : ℚ)), (1, 2), (2, 4)]
            [((0 : ℤ), (1 : ℚ)), (1, 2), (2, 4)]).length →
          (rolling_beta [((0 : ℤ), (1 : ℚ)), (1, 2), (2, 4)]
            [((0 : ℤ), (1 : ℚ)), (1, 2), (2, 4)] 1).map (fun l => l.getD i (some 1))
            = Except.ok none)
      ∧ (∀ i, ¬ i + 1 < 1 → i < (pctChange [1, 2, 4]).length →
          i < (pctChange [1, 2, 4]).length →
          windowAt (pctChange [1, 2, 4]) i 1 = windowAt (pctChange [1, 2, 4]) i 1 →
          (rolling_volatility [1, 2, 4] 1 true).map (fun l => l.getD i none)
            = (rolling_volatility [1, 2, 4] 1 true).map (fun l => l.getD i none)
          ∧ (rolling_sharpe (1 / 25) [1, 2, 4] 1 (some (3 / 100))).map
              (fun l => l.getD i none)
            = (rolling_sharpe (1 / 25) [1, 2, 4] 1 (some (3 / 100))).map
              (fun l => l.getD i none))
      ∧ (∀ i, ¬ i + 1 < 1 → i < ([1, 2, 4] : List ℚ).length →
          i < ([1, 2, 4] : List ℚ).length →
          windowAt [1, 2, 4] i 1 = windowAt [1, 2, 4] i 1 →
          (z_score [1, 2, 4] 1).map (fun l => l.getD i none)
            = (z_score [1, 2, 4] 1).map (fun l => l.getD i none))
      ∧ (∀ (ps2 bp2 : PSeries) i, 2 ≤ (vals ps2).length → 2 ≤ (vals bp2).length →
          1 ≤ i →
          i < (alignedReturns [((0 : ℤ), (1 : ℚ)), (1, 2), (2, 4)]
              [((0 : ℤ), (1 : ℚ)), (1, 2), (2, 4)]).length →
          i < (alignedReturns ps2 bp2).length →
          pairVals (((alignedReturns [((0 : ℤ), (1 : ℚ)), (1, 2), (2, 4)]
              [((0 : ℤ), (1 : ℚ)), (1, 2), (2, 4)]).take i).drop (i - 1))
            = pairVals (((alignedReturns ps2 bp2).take i).drop (i - 1)) →
          (rolling_beta [((0 : ℤ), (1 : ℚ)), (1, 2), (2, 4)]
              [((0 : ℤ), (1 : ℚ)), (1, 2), (2, 4)] 1).map (fun l => l.getD i none)
            = (rolling_beta ps2 bp2 1).map (fun l => l.getD i none))) :=
  ⟨⟨by norm_num, by norm_num [vals], by norm_num⟩,
   c2_rolling_shape [1, 2, 4] [1, 2, 4] [((0 : ℤ), (1 : ℚ)), (1, 2), (2, 4)]
     [((0 : ℤ), (1 : ℚ)), (1, 2), (2, 4)] 1 true (1 / 25) (3 / 100)
     (by norm_num) (by norm_num) (by norm_num [vals]) (by norm_num [vals]) (by norm_num)⟩

/-! ### Claim C9 -/

/-- Claim C9: two-run noninterference on the global risk-free-rate default.
For every price series, benchmark and explicitly passed risk_free_rate
argument, `sharpe_ratio`, `sortino_ratio`, `alpha` and `compute_metrics`
produce identical results under any two values of the global default: the
global is read only when the argument is omitted (`none`). -/
theorem c9_global_rate_noninterference (g1 g2 : ℚ) (ps bp : PSeries)
    (bench : Option PSeries) (xs : List ℚ) (rfv : ℚ) :
    sharpe_ratio g1 xs (some rfv) = sharpe_ratio g2 xs (some rfv)
    ∧ sortino_ratio g1 xs (some rfv) = sortino_ratio g2 xs (some rfv)
    ∧ alpha g1 ps bp (some rfv) = alpha g2 ps bp (some rfv)
    ∧ compute_metrics g1 ps bench (some rfv) = compute_metrics g2 ps bench (some rfv) :=
  ⟨rfl, rfl, rfl, rfl⟩

end FluxRx
